import Mathlib

deriving instance DecidableEq for Except

set_option maxRecDepth 40000

/-!
Verification of the NordPass Raycast extension core: the CSV-row ingestion
pipeline (parser.ts), the machine-bound authenticated-encryption layer
(encryption.ts) and the encrypted-cache manager (storage.ts), embedded
shallowly in Lean.  File contents are modelled as the strings the code reads;
the AES-256-GCM cipher and PBKDF2 of the Node crypto library are modelled as
an idealized authenticated stream cipher (XOR keystream plus a collision-free
MAC) and an idealized collision-free KDF, matching the library's documented
contract; everything written in this repository's own code (field lookup,
classification, the rolling file hash, token serialization shape, truthiness
checks, cache lifecycle) is translated directly from the source.
-/

/-! ## Source rows (parser.ts)

A source row is the record produced for one CSV line: a mapping from column
name to string value.  JavaScript property access `record.k` yields the value
when the column is present and `undefined` otherwise; a value is truthy
exactly when it is a non-empty string. -/

/-- A parsed CSV record: column name to value, as in `Record<string, string>`. -/
abbrev SourceRow := List (String × String)

/-- `record.k`: the value of column `k` if present. -/
def rowGet (r : SourceRow) (k : String) : Option String :=
  (r.find? (fun p => p.1 == k)).map (fun p => p.2)

/-- JavaScript truthiness of `record.k`: present and non-empty. -/
def jsTruthy : Option String → Bool
  | none => false
  | some s => s != ""

/-- JavaScript `a || b` on possibly-undefined strings. -/
def jsOrStr (a b : Option String) : Option String :=
  if jsTruthy a then a else b

/-- `hasPasswordFields` (parser.ts line 97): password, username or url truthy. -/
def hasPasswordFields (r : SourceRow) : Bool :=
  jsTruthy (rowGet r "password") || jsTruthy (rowGet r "username") ||
    jsTruthy (rowGet r "url")

/-- `hasCreditCardFields` (parser.ts line 104): any accepted card column truthy. -/
def hasCreditCardFields (r : SourceRow) : Bool :=
  jsTruthy (rowGet r "cardNumber") || jsTruthy (rowGet r "card_number") ||
    jsTruthy (rowGet r "expiryDate") || jsTruthy (rowGet r "expiry_date") ||
    jsTruthy (rowGet r "cvv") || jsTruthy (rowGet r "cardholderName") ||
    jsTruthy (rowGet r "cardholder_name")

/-- `hasSecureNoteFields` (parser.ts line 119): a note and no password/username. -/
def hasSecureNoteFields (r : SourceRow) : Bool :=
  jsTruthy (rowGet r "note") && !jsTruthy (rowGet r "password") &&
    !jsTruthy (rowGet r "username")

/-- `inferItemType` (parser.ts line 81). -/
def inferItemType (r : SourceRow) : String :=
  if hasCreditCardFields r then "creditcard"
  else if hasPasswordFields r then "password"
  else if hasSecureNoteFields r then "note"
  else "password"

/-- JavaScript `toLowerCase`, modelled per character. -/
def jsToLower (s : String) : String :=
  String.mk (s.data.map Char.toLower)

/-- `record.type?.toLowerCase() || inferItemType(record)` (parser.ts line 46). -/
def itemTypeOf (r : SourceRow) : String :=
  match (rowGet r "type").map jsToLower with
  | some t => if t == "" then inferItemType r else t
  | none => inferItemType r

/-- The three entity kinds of the data model. -/
inductive ItemKind where
  | credential
  | card
  | note
deriving DecidableEq, Repr

/-- Which list (if any) a record is pushed to by the `switch` in
`parseExportFile` (parser.ts lines 46-72); `none` means the record is pushed
nowhere (the `default` case matched no presence check). -/
def classifyRecord (r : SourceRow) : Option ItemKind :=
  if itemTypeOf r == "password" || itemTypeOf r == "login" then
    some ItemKind.credential
  else if itemTypeOf r == "creditcard" || itemTypeOf r == "credit_card" ||
      itemTypeOf r == "card" then
    some ItemKind.card
  else if itemTypeOf r == "note" || itemTypeOf r == "securenote" ||
      itemTypeOf r == "secure_note" then
    some ItemKind.note
  else if hasPasswordFields r then some ItemKind.credential
  else if hasCreditCardFields r then some ItemKind.card
  else if hasSecureNoteFields r then some ItemKind.note
  else none

/-- Modelled from the spec: field-presence inference with payment-card
indicators taking precedence over credential indicators, which take precedence
over note indicators, defaulting to Credential. -/
def specInferKind (r : SourceRow) : ItemKind :=
  if hasCreditCardFields r then ItemKind.card
  else if hasPasswordFields r then ItemKind.credential
  else if hasSecureNoteFields r then ItemKind.note
  else ItemKind.credential

/-- The presence-check fallback actually run by the `default` case of the
`switch` (parser.ts lines 64-71): credential indicators first, then card,
then note, pushing nothing when none matches. -/
def switchDefaultKind (r : SourceRow) : Option ItemKind :=
  if hasPasswordFields r then some ItemKind.credential
  else if hasCreditCardFields r then some ItemKind.card
  else if hasSecureNoteFields r then some ItemKind.note
  else none

/-- The lowercased type values recognized by the `switch` cases. -/
def recognizedTypes : List String :=
  ["password", "login", "creditcard", "credit_card", "card",
    "note", "securenote", "secure_note"]

/-! ## Typed entities and field extraction (parser.ts, types.ts) -/

/-- `Password` (types.ts); the constant tag field is omitted. -/
structure Password where
  name : String
  url : Option String
  username : Option String
  password : String
  note : Option String
  folder : Option String
deriving DecidableEq, Repr

/-- `CreditCard` (types.ts). -/
structure CreditCard where
  name : String
  cardholderName : Option String
  cardNumber : Option String
  expiryDate : Option String
  cvv : Option String
  note : Option String
  folder : Option String
deriving DecidableEq, Repr

/-- `SecureNote` (types.ts). -/
structure SecureNote where
  name : String
  note : String
  folder : Option String
deriving DecidableEq, Repr

/-- `parsePassword` (parser.ts line 127), with each `||` chain translated
through `jsOrStr`. -/
def parsePassword (r : SourceRow) : Password :=
  { name := (jsOrStr (rowGet r "name") (jsOrStr (rowGet r "title") (some ""))).getD ""
  , url := jsOrStr (rowGet r "url") (jsOrStr (rowGet r "website") none)
  , username := jsOrStr (rowGet r "username") (jsOrStr (rowGet r "login") none)
  , password := (jsOrStr (rowGet r "password") (some "")).getD ""
  , note := jsOrStr (rowGet r "note") (jsOrStr (rowGet r "notes") none)
  , folder := jsOrStr (rowGet r "folder") (jsOrStr (rowGet r "category") none) }

/-- `parseCreditCard` (parser.ts line 142). -/
def parseCreditCard (r : SourceRow) : CreditCard :=
  { name := (jsOrStr (rowGet r "name") (jsOrStr (rowGet r "title") (some ""))).getD ""
  , cardholderName := jsOrStr (rowGet r "cardholderName")
      (jsOrStr (rowGet r "cardholder_name") (jsOrStr (rowGet r "cardholder") none))
  , cardNumber := jsOrStr (rowGet r "cardNumber")
      (jsOrStr (rowGet r "card_number") (jsOrStr (rowGet r "number") none))
  , expiryDate := jsOrStr (rowGet r "expiryDate")
      (jsOrStr (rowGet r "expiry_date") (jsOrStr (rowGet r "expiry") none))
  , cvv := jsOrStr (rowGet r "cvv")
      (jsOrStr (rowGet r "cvc") (jsOrStr (rowGet r "securityCode") none))
  , note := jsOrStr (rowGet r "note") (jsOrStr (rowGet r "notes") none)
  , folder := jsOrStr (rowGet r "folder") (jsOrStr (rowGet r "category") none) }

/-- `parseSecureNote` (parser.ts line 158). -/
def parseSecureNote (r : SourceRow) : SecureNote :=
  { name := (jsOrStr (rowGet r "name") (jsOrStr (rowGet r "title") (some ""))).getD ""
  , note := (jsOrStr (rowGet r "note") (jsOrStr (rowGet r "notes") (some ""))).getD ""
  , folder := jsOrStr (rowGet r "folder") (jsOrStr (rowGet r "category") none) }

/-- Modelled from the spec: look an ordered list of synonym column names up in
the row; the first synonym carrying a non-empty value wins. -/
def specFieldLookup (r : SourceRow) : List String → Option String
  | [] => none
  | k :: ks =>
    match rowGet r k with
    | some v => if v != "" then some v else specFieldLookup r ks
    | none => specFieldLookup r ks

/-- The result of the row loop in `parseExportFile` (parser.ts lines 39-75). -/
structure ParsedExport where
  passwords : List Password
  creditCards : List CreditCard
  secureNotes : List SecureNote
deriving DecidableEq, Repr

/-- One iteration of the row loop of `parseExportFile`. -/
def pushRecord (acc : ParsedExport) (r : SourceRow) : ParsedExport :=
  match classifyRecord r with
  | some ItemKind.credential => { acc with passwords := acc.passwords ++ [parsePassword r] }
  | some ItemKind.card => { acc with creditCards := acc.creditCards ++ [parseCreditCard r] }
  | some ItemKind.note => { acc with secureNotes := acc.secureNotes ++ [parseSecureNote r] }
  | none => acc

/-- The row loop of `parseExportFile` over the already-parsed CSV records. -/
def parseExportRecords (records : List SourceRow) : ParsedExport :=
  records.foldl pushRecord ⟨[], [], []⟩

/-! ## The content fingerprint (parser.ts `calculateFileHash`)

`calculateFileHash` reads the file as UTF-8 text and folds
`hash = (hash << 5) - hash + charCodeAt(i); hash = hash & hash` over it,
returning `hash.toString(36)`.  `hash & hash` is JavaScript ToInt32; the
net step is congruent to `toInt32 (toInt32 (h * 32) - h + c)`.  The model
takes the file's decoded text as input and folds over its characters
(UTF-16 code units and scalar values agree on all BMP-only text). -/

/-- JavaScript ToInt32: reduce into the signed 32-bit range. -/
def toInt32 (n : Int) : Int := (n + 2147483648) % 4294967296 - 2147483648

/-- One step of the rolling hash loop (parser.ts lines 174-178). -/
def hashStep (h : Int) (c : Nat) : Int := toInt32 (toInt32 (h * 32) - h + c)

/-- The 32-bit rolling hash over the file content. -/
def jsStringHash (s : String) : Int :=
  s.data.foldl (fun h c => hashStep h c.toNat) 0

/-- Digit characters of `Number.prototype.toString(36)`: 0-9 then a-z. -/
def base36digitChar (d : Nat) : Char :=
  if d < 10 then Char.ofNat (48 + d) else Char.ofNat (87 + d)

/-- Base-36 digit expansion, most significant first; the fuel argument makes
the recursion structural (any fuel at least the value is enough). -/
def natToBase36Go : Nat → Nat → List Char → List Char
  | 0, n, acc => base36digitChar (n % 36) :: acc
  | fuel + 1, n, acc =>
    if n < 36 then base36digitChar n :: acc
    else natToBase36Go fuel (n / 36) (base36digitChar (n % 36) :: acc)

/-- Base-36 digit string of a natural number. -/
def natToBase36 (n : Nat) : List Char := natToBase36Go n n []

/-- `Number.prototype.toString(36)` on an integer: sign, then digits. -/
def intToBase36 (i : Int) : String :=
  if i < 0 then "-" ++ String.mk (natToBase36 i.natAbs)
  else String.mk (natToBase36 i.toNat)

/-- `calculateFileHash` (parser.ts line 170), on the file's content. -/
def calculateFileHash (content : String) : String :=
  intToBase36 (jsStringHash content)

/-- Value of a base-36 digit character, for reading expansions back. -/
def base36val (c : Char) : Nat :=
  if c.toNat ≤ 57 then c.toNat - 48 else c.toNat - 87

/-- Value of a base-36 digit string. -/
def evalBase36 (l : List Char) : Nat :=
  l.foldl (fun a c => 36 * a + base36val c) 0

/-! ## The encryption layer (encryption.ts)

Keys, IVs, tags and ciphertexts are byte lists; JavaScript strings are
carried to bytes through an injective fixed-width character encoding standing
for UTF-8.  AES-256-GCM is modelled as an idealized authenticated stream
cipher: a deterministic keystream XOR for the ciphertext and a collision-free
MAC over (key, iv, ciphertext) for the authentication tag, reflecting the
Node crypto contract that forging or cross-key-verifying a tag fails.
PBKDF2-HMAC-SHA256 is modelled as an idealized collision-free KDF.  The token
serialization, hex encoding, shape detection and error handling are
translated from encryption.ts. -/

structure MachineIdentity where
  hostname : String
  username : String
  platform : String
  arch : String
deriving DecidableEq, Repr

def joinSystemInfo (id : MachineIdentity) : String :=
  id.hostname ++ "|" ++ id.username ++ "|" ++ id.platform ++ "|" ++ id.arch

def charFixedBytes (c : Char) : List Nat :=
  [c.toNat % 256, c.toNat / 256 % 256, c.toNat / 65536]

def stringToBytes (s : String) : List Nat := (s.data.map charFixedBytes).flatten

def bytesToChars : List Nat → Option (List Char)
  | [] => some []
  | b0 :: b1 :: b2 :: rest =>
    if _h : Nat.isValidChar (b0 + 256 * b1 + 65536 * b2) then
      match bytesToChars rest with
      | some cs => some (Char.ofNat (b0 + 256 * b1 + 65536 * b2) :: cs)
      | none => none
    else none
  | _ => none

def bytesToString (l : List Nat) : Option String := (bytesToChars l).map String.mk

def pbkdf2Model (password _salt : String) (_iterations _keyLen : Nat) : List Nat :=
  stringToBytes password

def deriveEncryptionKey (id : MachineIdentity) : List Nat :=
  pbkdf2Model (joinSystemInfo id) "nordpass-raycast-extension-v1" 100000 32

def keystreamByte (key iv : List Nat) (i : Nat) : Nat :=
  (key.sum + 31 * iv.sum + 17 * i) % 256

def gcmXorStream (key iv : List Nat) : Nat → List Nat → List Nat
  | _, [] => []
  | i, b :: bs => (b ^^^ keystreamByte key iv i) :: gcmXorStream key iv (i + 1) bs

def gcmAuthTag (key iv ct : List Nat) : List Nat :=
  List.replicate key.length 1 ++ 0 :: (key ++ iv ++ ct)

structure EncToken where
  iv : List Nat
  authTag : List Nat
  encrypted : List Nat
deriving DecidableEq, Repr

def aesGcmEncrypt (key iv data : List Nat) : EncToken :=
  ⟨iv, gcmAuthTag key iv (gcmXorStream key iv 0 data), gcmXorStream key iv 0 data⟩

def aesGcmDecrypt (key : List Nat) (t : EncToken) : Option (List Nat) :=
  if t.authTag = gcmAuthTag key t.iv t.encrypted then
    some (gcmXorStream key t.iv 0 t.encrypted)
  else none

def hexOfBytes (l : List Nat) : List Char :=
  (l.map (fun b => [base36digitChar (b / 16), base36digitChar (b % 16)])).flatten

def hexStr (l : List Nat) : String := String.mk (hexOfBytes l)

def hexCharVal (c : Char) : Option Nat :=
  if 48 ≤ c.toNat ∧ c.toNat ≤ 57 then some (c.toNat - 48)
  else if 97 ≤ c.toNat ∧ c.toNat ≤ 102 then some (c.toNat - 87)
  else none

def bytesOfHex : List Char → Option (List Nat)
  | [] => some []
  | c1 :: c2 :: rest =>
    match hexCharVal c1, hexCharVal c2, bytesOfHex rest with
    | some hi, some lo, some bs => some ((16 * hi + lo) :: bs)
    | _, _, _ => none
  | _ => none

def tokenChars (t : EncToken) : List Char :=
  "\x7b\"iv\":\"".data ++ hexOfBytes t.iv ++ '"' ::
    (",\"authTag\":\"".data ++ hexOfBytes t.authTag ++ '"' ::
      (",\"encrypted\":\"".data ++ hexOfBytes t.encrypted ++ '"' :: "\x7d".data))

def printEncToken (t : EncToken) : String := String.mk (tokenChars t)

def dropLit : List Char → List Char → Option (List Char)
  | [], input => some input
  | _ :: _, [] => none
  | e :: es, c :: cs => if c = e then dropLit es cs else none

def readQuoted : List Char → Option (List Char × List Char)
  | [] => none
  | c :: cs =>
    if c = '"' then some ([], cs)
    else match readQuoted cs with
      | some (pre, rest) => some (c :: pre, rest)
      | none => none

structure RawToken where
  iv : String
  authTag : String
  encrypted : String
deriving DecidableEq, Repr

def parseTokenText (s : String) : Option RawToken :=
  match dropLit "\x7b\"iv\":\"".data s.data with
  | none => none
  | some r1 =>
    match readQuoted r1 with
    | none => none
    | some (ivc, r2) =>
      match dropLit ",\"authTag\":\"".data r2 with
      | none => none
      | some r3 =>
        match readQuoted r3 with
        | none => none
        | some (tagc, r4) =>
          match dropLit ",\"encrypted\":\"".data r4 with
          | none => none
          | some r5 =>
            match readQuoted r5 with
            | none => none
            | some (encc, r6) =>
              match dropLit "\x7d".data r6 with
              | none => none
              | some r7 =>
                if r7 = [] then some ⟨String.mk ivc, String.mk tagc, String.mk encc⟩
                else none

def isEncrypted (s : String) : Bool :=
  match parseTokenText s with
  | some t => t.iv != "" && t.authTag != "" && t.encrypted != ""
  | none => false

def decryptFailureMsg : String :=
  "Failed to decrypt cache. The cache may be corrupted or from a different system."

def encryptData (key iv : List Nat) (data : String) : String :=
  printEncToken (aesGcmEncrypt key iv (stringToBytes data))

def decryptData (key : List Nat) (encryptedData : String) : Except String String :=
  match parseTokenText encryptedData with
  | none => .error decryptFailureMsg
  | some raw =>
    match bytesOfHex raw.iv.data, bytesOfHex raw.authTag.data, bytesOfHex raw.encrypted.data with
    | some iv, some tag, some ct =>
      match aesGcmDecrypt key ⟨iv, tag, ct⟩ with
      | some pt =>
        match bytesToString pt with
        | some s => .ok s
        | none => .error decryptFailureMsg
      | none => .error decryptFailureMsg
    | _, _, _ => .error decryptFailureMsg

def readSecureFile (key : List Nat) (content : String) : Except String String :=
  if isEncrypted content then decryptData key content else .ok content

def writeSecureFile (key iv : List Nat) (data : String) (encrypt : Bool) : String :=
  if encrypt then encryptData key iv data else data

/-- Single-bit flip inside a byte list (byte `i`, bit `k`). -/
def flipBit (l : List Nat) (i k : Nat) : List Nat := l.set i (l.getD i 0 ^^^ 2 ^ k)

/-- A concrete 16-byte IV used by witnesses. -/
def demoIv : List Nat := [0, 1, 2, 3, 4, 5, 6, 7, 8, 9, 10, 11, 12, 13, 14, 15]

/-- The token produced by `encryptData` on a given machine, IV and plaintext. -/
def encTokenOf (id : MachineIdentity) (iv : List Nat) (s : String) : EncToken :=
  aesGcmEncrypt (deriveEncryptionKey id) iv (stringToBytes s)

structure CachedData where
  passwords : List Password
  creditCards : List CreditCard
  secureNotes : List SecureNote
  lastUpdated : Nat
  exportFileHash : String
deriving DecidableEq, Repr

structure StorageEnv where
  parseSource : String → Except String ParsedExport
  printSnapshot : CachedData → String
  parseSnapshot : String → Option CachedData
  key : List Nat
  iv : List Nat
  now : Nat

structure StorageWorld where
  sourceConfigured : Bool
  sourceContent : Option String
  cacheContent : Option String
deriving DecidableEq, Repr

def sourceNotConfiguredMsg : String :=
  "Export file not found. Please set the export file path in preferences."

def sourceMissingMsg : String := "Export file not found at the configured path."

def mkSnapshot (env : StorageEnv) (content : String) (items : ParsedExport) : CachedData :=
  ⟨items.passwords, items.creditCards, items.secureNotes, env.now, calculateFileHash content⟩

def loadCachedData (env : StorageEnv) (w : StorageWorld) :
    Option CachedData × StorageWorld :=
  match w.cacheContent with
  | none => (none, w)
  | some content =>
    match readSecureFile env.key content with
    | .error _ => (none, { w with cacheContent := none })
    | .ok plain =>
      match env.parseSnapshot plain with
      | some d => (some d, w)
      | none => (none, { w with cacheContent := none })

def saveCachedData (env : StorageEnv) (w : StorageWorld) (d : CachedData) : StorageWorld :=
  { w with cacheContent := some (writeSecureFile env.key env.iv (env.printSnapshot d) true) }

def refreshCache (env : StorageEnv) (w : StorageWorld) :
    Except String CachedData × StorageWorld :=
  if w.sourceConfigured = false then (.error sourceNotConfiguredMsg, w)
  else
    match w.sourceContent with
    | none => (.error sourceMissingMsg, w)
    | some content =>
      match env.parseSource content with
      | .error e => (.error e, w)
      | .ok items => (.ok (mkSnapshot env content items), saveCachedData env w (mkSnapshot env content items))

def getCachedData (env : StorageEnv) (w : StorageWorld) (forceRefresh : Bool) :
    Except String CachedData × StorageWorld × Bool :=
  if w.sourceConfigured = false then (.error sourceNotConfiguredMsg, w, false)
  else if forceRefresh then
    match refreshCache env w with
    | (r, w2) => (r, w2, true)
  else
    match loadCachedData env w with
    | (none, w1) =>
      match refreshCache env w1 with
      | (r, w2) => (r, w2, true)
    | (some cached, w1) =>
      match w1.sourceContent with
      | some content =>
        if cached.exportFileHash != calculateFileHash content then
          match refreshCache env w1 with
          | (r, w2) => (r, w2, true)
        else (.ok cached, w1, false)
      | none => (.ok cached, w1, false)

def cacheUnreadable (env : StorageEnv) (c : String) : Bool :=
  match readSecureFile env.key c with
  | .error _ => true
  | .ok p => (env.parseSnapshot p).isNone

/-- A concrete machine identity used by witnesses. -/
def demoIdentity : MachineIdentity := ⟨"host", "user", "linux", "x64"⟩

def demoKey : List Nat := deriveEncryptionKey demoIdentity

def demoParsed : ParsedExport :=
  ⟨[⟨"Example", some "https://example.com", some "alice", "s3cr3t", none, none⟩], [], []⟩

def demoSnap : CachedData :=
  ⟨demoParsed.passwords, demoParsed.creditCards, demoParsed.secureNotes, 1000,
    calculateFileHash "csv"⟩

def demoParseErrorMsg : String :=
  "Failed to parse CSV file: bad input. Please ensure the CSV file is properly formatted."

def demoEnv : StorageEnv :=
  { parseSource := fun c => if c == "csv" then .ok demoParsed else .error demoParseErrorMsg
  , printSnapshot := fun _ => "SNAP"
  , parseSnapshot := fun p => if p == "SNAP" then some demoSnap else none
  , key := demoKey
  , iv := demoIv
  , now := 1000 }

def staleSnap : CachedData := ⟨[], [], [], 1000, calculateFileHash "Aa"⟩

def staleEnv : StorageEnv :=
  { parseSource := fun _ => .error demoParseErrorMsg
  , printSnapshot := fun _ => "SNAP"
  , parseSnapshot := fun p => if p == "SNAP" then some staleSnap else none
  , key := demoKey
  , iv := demoIv
  , now := 1000 }

/-! ## END OF DEFINITIONS (ingestion); theorem sections follow, with the
crypto and storage definitions inserted above as the file grows. -/

/-! ## Base-36 rendering: supporting lemmas -/

lemma natToBase36Go_append : ∀ fuel n acc,
    natToBase36Go fuel n acc = natToBase36Go fuel n [] ++ acc := by
  intro fuel
  induction fuel with
  | zero => intro n acc; simp [natToBase36Go]
  | succ f ih =>
    intro n acc
    by_cases h : n < 36
    · simp [natToBase36Go, h]
    · simp only [natToBase36Go, if_neg h]
      rw [ih (n / 36) (base36digitChar (n % 36) :: acc),
        ih (n / 36) [base36digitChar (n % 36)]]
      simp

lemma natToBase36Go_fuel : ∀ f1 f2 n acc, n ≤ f1 → n ≤ f2 →
    natToBase36Go f1 n acc = natToBase36Go f2 n acc := by
  intro f1
  induction f1 with
  | zero =>
    intro f2 n acc h1 h2
    interval_cases n
    cases f2 with
    | zero => rfl
    | succ f => simp [natToBase36Go]
  | succ f ih =>
    intro f2 n acc h1 h2
    cases f2 with
    | zero =>
      interval_cases n
      simp [natToBase36Go]
    | succ g =>
      by_cases h : n < 36
      · simp [natToBase36Go, h]
      · simp only [natToBase36Go, if_neg h]
        have hd : n / 36 < n := Nat.div_lt_self (by omega) (by omega)
        exact ih g (n / 36) _ (by omega) (by omega)

lemma natToBase36_lt (n : Nat) (h : n < 36) : natToBase36 n = [base36digitChar n] := by
  cases n with
  | zero => rfl
  | succ m => simp [natToBase36, natToBase36Go, h]

lemma natToBase36_ge (n : Nat) (h : 36 ≤ n) :
    natToBase36 n = natToBase36 (n / 36) ++ [base36digitChar (n % 36)] := by
  have hn : n = (n - 1) + 1 := by omega
  rw [natToBase36, hn]
  simp only [natToBase36Go, if_neg (by omega : ¬ n - 1 + 1 < 36)]
  rw [← hn, natToBase36Go_append]
  have hd : n / 36 < n := Nat.div_lt_self (by omega) (by omega)
  rw [natToBase36Go_fuel (n - 1) (n / 36) (n / 36) [] (by omega) (le_refl _)]
  rfl

lemma base36val_digit : ∀ d, d < 36 → base36val (base36digitChar d) = d := by decide

lemma evalBase36_append_digit (xs : List Char) (c : Char) :
    evalBase36 (xs ++ [c]) = 36 * evalBase36 xs + base36val c := by
  simp [evalBase36, List.foldl_append]

lemma evalBase36_natToBase36 : ∀ n, evalBase36 (natToBase36 n) = n := by
  intro n
  induction n using Nat.strong_induction_on with
  | _ n ih =>
    by_cases h : n < 36
    · rw [natToBase36_lt n h]
      simp [evalBase36, base36val_digit n h]
    · rw [natToBase36_ge n (by omega)]
      rw [evalBase36_append_digit]
      rw [ih (n / 36) (Nat.div_lt_self (by omega) (by omega))]
      rw [base36val_digit (n % 36) (Nat.mod_lt n (by omega))]
      omega

lemma natToBase36_inj (a b : Nat) (h : natToBase36 a = natToBase36 b) : a = b := by
  have := evalBase36_natToBase36 a
  rw [h, evalBase36_natToBase36 b] at this
  omega

lemma base36digitChar_ne_minus : ∀ d, d < 36 → base36digitChar d ≠ '-' := by decide

lemma natToBase36_head : ∀ n, ∃ d rest, d < 36 ∧ natToBase36 n = base36digitChar d :: rest := by
  intro n
  induction n using Nat.strong_induction_on with
  | _ n ih =>
    by_cases h : n < 36
    · exact ⟨n, [], h, natToBase36_lt n h⟩
    · obtain ⟨d, rest, hd, hrec⟩ := ih (n / 36) (Nat.div_lt_self (by omega) (by omega))
      refine ⟨d, rest ++ [base36digitChar (n % 36)], hd, ?_⟩
      rw [natToBase36_ge n (by omega), hrec]
      rfl

lemma intToBase36_inj (i j : Int) (h : intToBase36 i = intToBase36 j) : i = j := by
  unfold intToBase36 at h
  by_cases hi : i < 0 <;> by_cases hj : j < 0
  · rw [if_pos hi, if_pos hj] at h
    have hdata : ('-' :: natToBase36 i.natAbs) = ('-' :: natToBase36 j.natAbs) := by
      have := congrArg String.data h
      simpa using this
    have := natToBase36_inj i.natAbs j.natAbs (by injection hdata)
    omega
  · rw [if_pos hi, if_neg hj] at h
    obtain ⟨d, rest, hd, hj2⟩ := natToBase36_head j.toNat
    have hdata := congrArg String.data h
    simp [hj2] at hdata
    exact absurd hdata.1.symm (base36digitChar_ne_minus d hd)
  · rw [if_neg hi, if_pos hj] at h
    obtain ⟨d, rest, hd, hi2⟩ := natToBase36_head i.toNat
    have hdata := congrArg String.data h
    simp [hi2] at hdata
    exact absurd hdata.1 (base36digitChar_ne_minus d hd)
  · rw [if_neg hi, if_neg hj] at h
    have hdata : natToBase36 i.toNat = natToBase36 j.toNat := by
      have := congrArg String.data h
      simpa using this
    have := natToBase36_inj i.toNat j.toNat hdata
    omega

lemma calculateFileHash_ne_of_hash_ne (c1 c2 : String)
    (h : jsStringHash c1 ≠ jsStringHash c2) :
    calculateFileHash c1 ≠ calculateFileHash c2 :=
  fun he => h (intToBase36_inj _ _ he)

/-! ## Claims C1 and C9: classification and field extraction -/

lemma classify_of_infer (r : SourceRow) (h : itemTypeOf r = inferItemType r) :
    classifyRecord r = some (specInferKind r) := by
  unfold classifyRecord
  rw [h]
  unfold inferItemType specInferKind
  cases hc : hasCreditCardFields r <;> cases hp : hasPasswordFields r <;>
    cases hn : hasSecureNoteFields r <;> simp

lemma specFieldLookup_cons (r : SourceRow) (k : String) (ks : List String) :
    specFieldLookup r (k :: ks) = jsOrStr (rowGet r k) (specFieldLookup r ks) := by
  cases h : rowGet r k with
  | none => simp [specFieldLookup, jsOrStr, jsTruthy, h]
  | some v => by_cases hv : v = "" <;> simp [specFieldLookup, jsOrStr, jsTruthy, h, hv]

lemma specFieldLookup_nil (r : SourceRow) : specFieldLookup r [] = none := rfl

/-- C1 (amended): when the type column is absent or lowercases to the empty
string, classification follows field-presence inference with card indicators
first, then credential, then note, defaulting to Credential; when the type
column is present, non-empty and unrecognized, the `switch` default runs
presence checks in the order credential, card, note, and a row matching none
of them is dropped. -/
theorem classifyRecord_amended_spec (r : SourceRow) :
    (((rowGet r "type").map jsToLower).getD "" = "" →
      classifyRecord r = some (specInferKind r))
    ∧ (∀ t, (rowGet r "type").map jsToLower = some t → t ≠ "" →
        t ∉ recognizedTypes → classifyRecord r = switchDefaultKind r) := by
  constructor
  · intro h
    apply classify_of_infer
    unfold itemTypeOf
    cases hrt : (rowGet r "type").map jsToLower with
    | none => rfl
    | some t =>
      have ht : t = "" := by rw [hrt] at h; simpa using h
      subst ht
      simp
  · intro t hrt htne hcont
    have ht : itemTypeOf r = t := by
      unfold itemTypeOf
      rw [hrt]
      simp [htne]
    rw [recognizedTypes] at hcont
    simp only [List.mem_cons, List.not_mem_nil, or_false, not_or] at hcont
    obtain ⟨h1, h2, h3, h4, h5, h6, h7, h8⟩ := hcont
    unfold classifyRecord switchDefaultKind
    rw [ht]
    simp [h1, h2, h3, h4, h5, h6, h7, h8]

/-- C1 witness: a row with no type column follows card-first inference, and a
row with the unrecognized type value "folder" follows the switch-default
presence checks. -/
theorem classifyRecord_amended_spec_witness :
    classifyRecord [("password", "p"), ("cardNumber", "4111")] =
      some (specInferKind [("password", "p"), ("cardNumber", "4111")])
    ∧ classifyRecord [("type", "folder"), ("note", "n")] =
      switchDefaultKind [("type", "folder"), ("note", "n")] :=
  ⟨(classifyRecord_amended_spec [("password", "p"), ("cardNumber", "4111")]).1 (by decide),
   (classifyRecord_amended_spec [("type", "folder"), ("note", "n")]).2 "folder"
     (by decide) (by decide) (by decide)⟩

/-- C1 counterexample: a row whose type value "identity" is present but
unrecognized and which carries both a password and a card-number column is
classified as a Credential, not as a PaymentCard as the claim requires, and a
row with an unrecognized type and no indicator fields is dropped instead of
defaulting to Credential. -/
theorem classifyRecord_unrecognized_type_counterexample :
    rowGet [("type", "identity"), ("password", "p"), ("cardNumber", "4111")] "type" =
      some "identity"
    ∧ jsToLower "identity" ∉ recognizedTypes
    ∧ hasCreditCardFields [("type", "identity"), ("password", "p"), ("cardNumber", "4111")] = true
    ∧ classifyRecord [("type", "identity"), ("password", "p"), ("cardNumber", "4111")] =
        some ItemKind.credential
    ∧ some ItemKind.credential ≠ some ItemKind.card
    ∧ classifyRecord [("type", "wifi")] = none := by
  refine ⟨by decide, by decide, by decide, by decide, by decide, by decide⟩

lemma jsOrStr_getD_congr (a x y : Option String) (h : x.getD "" = y.getD "") :
    (jsOrStr a x).getD "" = (jsOrStr a y).getD "" := by
  unfold jsOrStr
  by_cases ha : jsTruthy a = true
  · simp [ha]
  · simp [Bool.not_eq_true] at ha
    simp [ha, h]

lemma jsOrStr_some_empty (a : Option String) :
    (jsOrStr a (some "")).getD "" = (jsOrStr a none).getD "" := by
  cases a with
  | none => rfl
  | some v => by_cases hv : v != "" <;> simp [jsOrStr, jsTruthy, hv]

/-- C9 (amended): every logical field of every entity kind is extracted by
looking its ordered synonym list up in the row, and the first synonym carrying
a non-empty value wins; a synonym present with an empty value is skipped as if
absent, and later synonyms are never merged or concatenated. -/
theorem field_extraction_first_nonempty_wins (r : SourceRow) :
    (parsePassword r).name = (specFieldLookup r ["name", "title"]).getD ""
    ∧ (parsePassword r).url = specFieldLookup r ["url", "website"]
    ∧ (parsePassword r).username = specFieldLookup r ["username", "login"]
    ∧ (parsePassword r).password = (specFieldLookup r ["password"]).getD ""
    ∧ (parsePassword r).note = specFieldLookup r ["note", "notes"]
    ∧ (parsePassword r).folder = specFieldLookup r ["folder", "category"]
    ∧ (parseCreditCard r).name = (specFieldLookup r ["name", "title"]).getD ""
    ∧ (parseCreditCard r).cardholderName =
        specFieldLookup r ["cardholderName", "cardholder_name", "cardholder"]
    ∧ (parseCreditCard r).cardNumber = specFieldLookup r ["cardNumber", "card_number", "number"]
    ∧ (parseCreditCard r).expiryDate = specFieldLookup r ["expiryDate", "expiry_date", "expiry"]
    ∧ (parseCreditCard r).cvv = specFieldLookup r ["cvv", "cvc", "securityCode"]
    ∧ (parseCreditCard r).note = specFieldLookup r ["note", "notes"]
    ∧ (parseCreditCard r).folder = specFieldLookup r ["folder", "category"]
    ∧ (parseSecureNote r).name = (specFieldLookup r ["name", "title"]).getD ""
    ∧ (parseSecureNote r).note = (specFieldLookup r ["note", "notes"]).getD ""
    ∧ (parseSecureNote r).folder = specFieldLookup r ["folder", "category"] := by
  refine ⟨?_, ?_, ?_, ?_, ?_, ?_, ?_, ?_, ?_, ?_, ?_, ?_, ?_, ?_, ?_, ?_⟩ <;>
    simp only [parsePassword, parseCreditCard, parseSecureNote,
      specFieldLookup_cons, specFieldLookup_nil] <;>
    first
      | rfl
      | (apply jsOrStr_getD_congr; simp [jsOrStr_some_empty])

/-- C9 counterexample: the name column is present with the empty string, yet
extraction returns the title synonym's value instead of the empty string, so
the first present synonym does not win when its value is empty. -/
theorem parsePassword_empty_synonym_counterexample :
    rowGet [("name", ""), ("title", "T")] "name" = some ""
    ∧ (parsePassword [("name", ""), ("title", "T")]).name = "T"
    ∧ ("T" : String) ≠ "" := by
  refine ⟨by decide, by decide, by decide⟩

/-! ## Claims C3, C4, C5, C10: the encryption layer -/

lemma char_toNat_lt (c : Char) : c.toNat < 1114112 := by
  have h : Nat.isValidChar c.toNat := c.valid
  rcases h with h | ⟨h1, h2⟩
  · omega
  · omega

lemma charFixedBytes_lt (c : Char) : ∀ b ∈ charFixedBytes c, b < 256 := by
  have := char_toNat_lt c
  simp [charFixedBytes]
  omega

lemma stringToBytes_lt (s : String) : ∀ b ∈ stringToBytes s, b < 256 := by
  intro b hb
  simp only [stringToBytes, List.mem_flatten, List.mem_map] at hb
  obtain ⟨l, ⟨c, _, rfl⟩, hbl⟩ := hb
  exact charFixedBytes_lt c b hbl

lemma keystreamByte_lt (key iv : List Nat) (i : Nat) : keystreamByte key iv i < 256 :=
  Nat.mod_lt _ (by omega)

lemma byte_xor_lt {a b : Nat} (ha : a < 256) (hb : b < 256) : a ^^^ b < 256 := by
  have := Nat.xor_lt_two_pow (n := 8) (by simpa using ha) (by simpa using hb)
  simpa using this

lemma gcmXorStream_lt (key iv : List Nat) :
    ∀ i l, (∀ b ∈ l, b < 256) → ∀ b ∈ gcmXorStream key iv i l, b < 256 := by
  intro i l
  induction l generalizing i with
  | nil => intro _ b hb; simp [gcmXorStream] at hb
  | cons x xs ih =>
    intro h b hb
    simp only [gcmXorStream, List.mem_cons] at hb
    rcases hb with rfl | hb
    · exact byte_xor_lt (h x (by simp)) (keystreamByte_lt key iv i)
    · exact ih (i + 1) (fun y hy => h y (by simp [hy])) b hb

lemma gcmXorStream_invol (key iv : List Nat) :
    ∀ i l, gcmXorStream key iv i (gcmXorStream key iv i l) = l := by
  intro i l
  induction l generalizing i with
  | nil => rfl
  | cons x xs ih =>
    simp only [gcmXorStream, Nat.xor_cancel_right]
    rw [ih (i + 1)]

lemma gcmAuthTag_lt (key iv ct : List Nat) (hk : ∀ b ∈ key, b < 256)
    (hiv : ∀ b ∈ iv, b < 256) (hct : ∀ b ∈ ct, b < 256) :
    ∀ b ∈ gcmAuthTag key iv ct, b < 256 := by
  intro b hb
  simp only [gcmAuthTag, List.mem_append, List.mem_cons, List.mem_replicate] at hb
  rcases hb with ⟨_, rfl⟩ | rfl | (hb | hb) | hb
  · omega
  · omega
  · exact hk b hb
  · exact hiv b hb
  · exact hct b hb

lemma hexCharVal_digit : ∀ d, d < 16 → hexCharVal (base36digitChar d) = some d := by decide

lemma base36digitChar_ne_quote : ∀ d, d < 16 → base36digitChar d ≠ '"' := by decide

lemma hexOfBytes_cons (b : Nat) (bs : List Nat) :
    hexOfBytes (b :: bs) = base36digitChar (b / 16) :: base36digitChar (b % 16) :: hexOfBytes bs := by
  simp [hexOfBytes]

lemma bytesOfHex_hexOfBytes : ∀ l, (∀ b ∈ l, b < 256) → bytesOfHex (hexOfBytes l) = some l := by
  intro l
  induction l with
  | nil => intro _; rfl
  | cons b bs ih =>
    intro h
    have hb : b < 256 := h b (by simp)
    rw [hexOfBytes_cons]
    simp only [bytesOfHex]
    rw [hexCharVal_digit (b / 16) (by omega), hexCharVal_digit (b % 16) (by omega),
      ih (fun y hy => h y (by simp [hy]))]
    simp only []
    have : 16 * (b / 16) + b % 16 = b := by omega
    rw [this]

lemma hexOfBytes_no_quote (l : List Nat) (h : ∀ b ∈ l, b < 256) :
    ∀ c ∈ hexOfBytes l, c ≠ '"' := by
  intro c hc
  simp only [hexOfBytes, List.mem_flatten, List.mem_map] at hc
  obtain ⟨cl, ⟨b, hbl, rfl⟩, hcl⟩ := hc
  have hb := h b hbl
  simp at hcl
  rcases hcl with rfl | rfl
  · exact base36digitChar_ne_quote (b / 16) (by omega)
  · exact base36digitChar_ne_quote (b % 16) (by omega)

lemma dropLit_append : ∀ e r : List Char, dropLit e (e ++ r) = some r := by
  intro e
  induction e with
  | nil => intro r; rfl
  | cons c cs ih => intro r; simp [dropLit, ih r]

lemma readQuoted_append (pre : List Char) (h : ∀ c ∈ pre, c ≠ '"') :
    ∀ rest : List Char, readQuoted (pre ++ '"' :: rest) = some (pre, rest) := by
  induction pre with
  | nil => intro rest; simp [readQuoted]
  | cons c cs ih =>
    intro rest
    have hc : c ≠ '"' := h c (by simp)
    have hrec := ih (fun y hy => h y (by simp [hy])) rest
    simp [readQuoted, hc, hrec]

lemma dropLit_self (e : List Char) : dropLit e e = some [] := by
  have := dropLit_append e []
  simpa using this

lemma mk_data (l : List Char) : (String.mk l).data = l := rfl

lemma parseTokenText_print (ivb tagb ctb : List Nat)
    (hiv : ∀ b ∈ ivb, b < 256) (htag : ∀ b ∈ tagb, b < 256)
    (hct : ∀ b ∈ ctb, b < 256) :
    parseTokenText (printEncToken ⟨ivb, tagb, ctb⟩) =
      some ⟨hexStr ivb, hexStr tagb, hexStr ctb⟩ := by
  simp only [parseTokenText, printEncToken, tokenChars, mk_data, List.append_assoc,
    dropLit_append,
    readQuoted_append _ (hexOfBytes_no_quote ivb hiv),
    readQuoted_append _ (hexOfBytes_no_quote tagb htag),
    readQuoted_append _ (hexOfBytes_no_quote ctb hct),
    dropLit_self, hexStr, if_true]

lemma bytesToChars_charFixedBytes (c : Char) (rest : List Nat) :
    bytesToChars (charFixedBytes c ++ rest) =
      (bytesToChars rest).map (fun cs => c :: cs) := by
  have hlt := char_toNat_lt c
  have hv : Nat.isValidChar c.toNat := c.valid
  have hn : c.toNat % 256 + 256 * (c.toNat / 256 % 256) + 65536 * (c.toNat / 65536) =
      c.toNat := by omega
  have he : charFixedBytes c ++ rest =
      c.toNat % 256 :: c.toNat / 256 % 256 :: c.toNat / 65536 :: rest := rfl
  rw [he]
  simp only [bytesToChars, hn]
  rw [dif_pos hv]
  cases bytesToChars rest with
  | none => rfl
  | some cs => simp [Char.ofNat_toNat]

lemma bytesToChars_flatten : ∀ l : List Char,
    bytesToChars ((l.map charFixedBytes).flatten) = some l := by
  intro l
  induction l with
  | nil => rfl
  | cons c cs ih =>
    simp only [List.map_cons, List.flatten_cons]
    rw [bytesToChars_charFixedBytes, ih]
    rfl

lemma bytesToString_stringToBytes (s : String) : bytesToString (stringToBytes s) = some s := by
  unfold bytesToString stringToBytes
  rw [bytesToChars_flatten]
  rfl

lemma stringToBytes_inj (a b : String) (h : stringToBytes a = stringToBytes b) : a = b := by
  have ha := bytesToString_stringToBytes a
  rw [h, bytesToString_stringToBytes b] at ha
  injection ha with h2
  exact h2.symm

lemma decryptData_encryptData (key iv : List Nat) (s : String)
    (hkey : ∀ b ∈ key, b < 256) (hiv : ∀ b ∈ iv, b < 256) :
    decryptData key (encryptData key iv s) = .ok s := by
  have hct : ∀ b ∈ gcmXorStream key iv 0 (stringToBytes s), b < 256 :=
    gcmXorStream_lt key iv 0 _ (stringToBytes_lt s)
  have htag := gcmAuthTag_lt key iv _ hkey hiv hct
  simp only [encryptData, aesGcmEncrypt, decryptData]
  rw [parseTokenText_print iv (gcmAuthTag key iv (gcmXorStream key iv 0 (stringToBytes s)))
    (gcmXorStream key iv 0 (stringToBytes s)) hiv htag hct]
  simp only [hexStr, mk_data, bytesOfHex_hexOfBytes iv hiv,
    bytesOfHex_hexOfBytes _ htag, bytesOfHex_hexOfBytes _ hct,
    aesGcmDecrypt, if_pos rfl, if_true, gcmXorStream_invol key iv 0 (stringToBytes s),
    bytesToString_stringToBytes s]

lemma replicate_marker_inj : ∀ (n m : Nat) (xs ys : List Nat),
    List.replicate n 1 ++ 0 :: xs = List.replicate m 1 ++ 0 :: ys → n = m ∧ xs = ys := by
  intro n
  induction n with
  | zero =>
    intro m xs ys h
    cases m with
    | zero =>
      simp only [List.replicate, List.nil_append, List.cons.injEq] at h
      exact ⟨rfl, h.2⟩
    | succ k => simp [List.replicate] at h
  | succ k ih =>
    intro m xs ys h
    cases m with
    | zero => simp [List.replicate] at h
    | succ j =>
      simp only [List.replicate, List.cons_append, List.cons.injEq, true_and] at h
      obtain ⟨hn, hxs⟩ := ih j xs ys h
      exact ⟨by omega, hxs⟩

lemma gcmAuthTag_key_inj (k1 k2 iv ct : List Nat)
    (h : gcmAuthTag k1 iv ct = gcmAuthTag k2 iv ct) : k1 = k2 := by
  unfold gcmAuthTag at h
  obtain ⟨hlen, hrest⟩ := replicate_marker_inj _ _ _ _ h
  rw [List.append_assoc, List.append_assoc] at hrest
  exact (List.append_inj hrest hlen).1

lemma gcmAuthTag_ct_inj (k iv ct ct' : List Nat)
    (h : gcmAuthTag k iv ct = gcmAuthTag k iv ct') : ct = ct' := by
  unfold gcmAuthTag at h
  obtain ⟨-, hrest⟩ := replicate_marker_inj _ _ _ _ h
  exact List.append_cancel_left hrest

lemma flipBit_ne (l : List Nat) (i k : Nat) (hi : i < l.length) : flipBit l i k ≠ l := by
  intro he
  have h1 : (flipBit l i k)[i]? = some (l.getD i 0 ^^^ 2 ^ k) := by
    simp [flipBit, List.getElem?_set_self, hi]
  rw [he] at h1
  have h2 : l[i]? = some (l.getD i 0) := by
    simp [List.getElem?_eq_getElem hi, List.getD_eq_getElem l 0 hi]
  rw [h2] at h1
  injection h1 with h3
  have hp : (2 : Nat) ^ k ≠ 0 := by positivity
  apply hp
  have h4 : l.getD i 0 ^^^ (l.getD i 0 ^^^ 2 ^ k) = l.getD i 0 ^^^ l.getD i 0 := by
    rw [← h3]
  rw [Nat.xor_cancel_left, Nat.xor_self] at h4
  exact h4

lemma flipBit_lt (l : List Nat) (i k : Nat) (hl : ∀ b ∈ l, b < 256) (hk : k < 8) :
    ∀ b ∈ flipBit l i k, b < 256 := by
  intro b hb
  rcases List.mem_or_eq_of_mem_set hb with hb | rfl
  · exact hl b hb
  · apply byte_xor_lt
    · by_cases hi : i < l.length
      · exact hl _ (by rw [List.getD_eq_getElem l 0 hi]; exact List.getElem_mem hi)
      · have : l.getD i 0 = 0 := by
          simp [List.getD_eq_getElem?_getD, List.getElem?_eq_none (by omega : l.length ≤ i)]
        rw [this]
        omega
    · calc 2 ^ k < 2 ^ 8 := Nat.pow_lt_pow_right (by omega) hk
      _ = 256 := rfl

lemma deriveEncryptionKey_lt (id : MachineIdentity) :
    ∀ b ∈ deriveEncryptionKey id, b < 256 := by
  unfold deriveEncryptionKey pbkdf2Model
  exact stringToBytes_lt _

lemma decryptData_bad_tag (key ivb tagb ctb : List Nat)
    (hiv : ∀ b ∈ ivb, b < 256) (htag : ∀ b ∈ tagb, b < 256) (hct : ∀ b ∈ ctb, b < 256)
    (hne : tagb ≠ gcmAuthTag key ivb ctb) :
    decryptData key (printEncToken ⟨ivb, tagb, ctb⟩) = .error decryptFailureMsg := by
  simp only [decryptData]
  rw [parseTokenText_print ivb tagb ctb hiv htag hct]
  simp only [hexStr, mk_data, bytesOfHex_hexOfBytes _ hiv, bytesOfHex_hexOfBytes _ htag,
    bytesOfHex_hexOfBytes _ hct, aesGcmDecrypt, if_neg hne]

lemma hexOfBytes_eq_nil (l : List Nat) : hexOfBytes l = [] ↔ l = [] := by
  cases l <;> simp [hexOfBytes]

lemma hexStr_ne_empty (l : List Nat) (h : l ≠ []) : hexStr l ≠ "" := by
  intro he
  apply h
  have := congrArg String.data he
  simp only [hexStr, mk_data] at this
  exact (hexOfBytes_eq_nil l).mp (by simpa using this)

lemma stringToBytes_eq_nil (s : String) : stringToBytes s = [] ↔ s = "" := by
  constructor
  · intro h
    cases s with
    | mk data =>
      cases data with
      | nil => rfl
      | cons c cs => simp [stringToBytes, charFixedBytes] at h
  · rintro rfl
    rfl

lemma gcmAuthTag_ne_nil (k iv ct : List Nat) : gcmAuthTag k iv ct ≠ [] := by
  simp [gcmAuthTag]

lemma isEncrypted_print (ivb tagb ctb : List Nat)
    (hiv : ∀ b ∈ ivb, b < 256) (htag : ∀ b ∈ tagb, b < 256) (hct : ∀ b ∈ ctb, b < 256)
    (hivne : ivb ≠ []) (htagne : tagb ≠ []) (hctne : ctb ≠ []) :
    isEncrypted (printEncToken ⟨ivb, tagb, ctb⟩) = true := by
  unfold isEncrypted
  rw [parseTokenText_print ivb tagb ctb hiv htag hct]
  simp [hexStr_ne_empty _ hivne, hexStr_ne_empty _ htagne, hexStr_ne_empty _ hctne]

lemma isEncrypted_print_empty_ct (ivb tagb : List Nat)
    (hiv : ∀ b ∈ ivb, b < 256) (htag : ∀ b ∈ tagb, b < 256) :
    isEncrypted (printEncToken ⟨ivb, tagb, []⟩) = false := by
  unfold isEncrypted
  rw [parseTokenText_print ivb tagb [] hiv htag (by simp)]
  simp [hexStr, hexOfBytes]

lemma printEncToken_ne_empty (t : EncToken) : printEncToken t ≠ "" := by
  intro h
  have := congrArg String.data h
  simp [printEncToken, mk_data, tokenChars] at this

/-- C3: for every machine identity, IV of bytes and string, decrypting the
encryption of the string under the same derived key returns the string,
including the empty string and non-ASCII text. -/
theorem decryptData_encryptData_roundtrip (id : MachineIdentity) (iv : List Nat) (s : String)
    (hiv : ∀ b ∈ iv, b < 256) :
    decryptData (deriveEncryptionKey id) (encryptData (deriveEncryptionKey id) iv s) =
      .ok s :=
  decryptData_encryptData _ iv s (deriveEncryptionKey_lt id) hiv

/-- C3 witness: the round trip at a concrete identity, IV and a non-ASCII
plaintext. -/
theorem decryptData_encryptData_roundtrip_witness :
    decryptData (deriveEncryptionKey ⟨"host", "user", "linux", "x64"⟩)
      (encryptData (deriveEncryptionKey ⟨"host", "user", "linux", "x64"⟩) demoIv "héllo ☃") =
      .ok "héllo ☃" :=
  decryptData_encryptData_roundtrip ⟨"host", "user", "linux", "x64"⟩ demoIv "héllo ☃" (by decide)

/-- C4: flipping any single bit of any byte of the ciphertext portion or the
authentication-tag portion of a token produced by `encryptData` makes
`decryptData` fail with the decryption error, so it never returns a different
plaintext. -/
theorem decryptData_tamper_detection (id : MachineIdentity) (iv : List Nat) (s : String)
    (i k : Nat) (hiv : ∀ b ∈ iv, b < 256) (hk : k < 8) :
    (i < (encTokenOf id iv s).encrypted.length →
      decryptData (deriveEncryptionKey id)
        (printEncToken ⟨(encTokenOf id iv s).iv, (encTokenOf id iv s).authTag,
          flipBit (encTokenOf id iv s).encrypted i k⟩) = .error decryptFailureMsg)
    ∧ (i < (encTokenOf id iv s).authTag.length →
      decryptData (deriveEncryptionKey id)
        (printEncToken ⟨(encTokenOf id iv s).iv, flipBit (encTokenOf id iv s).authTag i k,
          (encTokenOf id iv s).encrypted⟩) = .error decryptFailureMsg) := by
  have hkey := deriveEncryptionKey_lt id
  have hct : ∀ b ∈ gcmXorStream (deriveEncryptionKey id) iv 0 (stringToBytes s), b < 256 :=
    gcmXorStream_lt _ iv 0 _ (stringToBytes_lt s)
  have htag := gcmAuthTag_lt (deriveEncryptionKey id) iv _ hkey hiv hct
  constructor
  · intro hi
    simp only [encTokenOf, aesGcmEncrypt] at hi ⊢
    apply decryptData_bad_tag _ _ _ _ hiv htag (flipBit_lt _ i k hct hk)
    intro he
    have hcteq := gcmAuthTag_ct_inj _ _ _ _ he
    exact flipBit_ne _ i k hi hcteq.symm
  · intro hi
    simp only [encTokenOf, aesGcmEncrypt] at hi ⊢
    apply decryptData_bad_tag _ _ _ _ hiv (flipBit_lt _ i k htag hk) hct
    exact flipBit_ne _ i k hi

/-- C4 witness: both tamper cases at a concrete token, byte 0, bit 3. -/
theorem decryptData_tamper_detection_witness :
    (0 < (encTokenOf ⟨"host", "user", "linux", "x64"⟩ demoIv "hi").encrypted.length →
      decryptData (deriveEncryptionKey ⟨"host", "user", "linux", "x64"⟩)
        (printEncToken ⟨(encTokenOf ⟨"host", "user", "linux", "x64"⟩ demoIv "hi").iv,
          (encTokenOf ⟨"host", "user", "linux", "x64"⟩ demoIv "hi").authTag,
          flipBit (encTokenOf ⟨"host", "user", "linux", "x64"⟩ demoIv "hi").encrypted 0 3⟩) =
        .error decryptFailureMsg)
    ∧ (0 < (encTokenOf ⟨"host", "user", "linux", "x64"⟩ demoIv "hi").authTag.length →
      decryptData (deriveEncryptionKey ⟨"host", "user", "linux", "x64"⟩)
        (printEncToken ⟨(encTokenOf ⟨"host", "user", "linux", "x64"⟩ demoIv "hi").iv,
          flipBit (encTokenOf ⟨"host", "user", "linux", "x64"⟩ demoIv "hi").authTag 0 3,
          (encTokenOf ⟨"host", "user", "linux", "x64"⟩ demoIv "hi").encrypted⟩) =
        .error decryptFailureMsg) :=
  decryptData_tamper_detection ⟨"host", "user", "linux", "x64"⟩ demoIv "hi" 0 3
    (by decide) (by decide)

/-- C5 (amended): a token encrypted under the key derived from identity A
fails to decrypt under the key derived from identity B whenever the joined
identity strings differ, and key derivation is a deterministic function of
the joined identity string. -/
theorem cross_machine_decrypt_fails (a b : MachineIdentity) (iv : List Nat) (s : String)
    (hne : joinSystemInfo a ≠ joinSystemInfo b) (hiv : ∀ x ∈ iv, x < 256) :
    decryptData (deriveEncryptionKey b) (encryptData (deriveEncryptionKey a) iv s) =
      .error decryptFailureMsg
    ∧ (∀ c d : MachineIdentity, joinSystemInfo c = joinSystemInfo d →
        deriveEncryptionKey c = deriveEncryptionKey d) := by
  constructor
  · have hkeyA := deriveEncryptionKey_lt a
    have hct : ∀ x ∈ gcmXorStream (deriveEncryptionKey a) iv 0 (stringToBytes s), x < 256 :=
      gcmXorStream_lt _ iv 0 _ (stringToBytes_lt s)
    have htag := gcmAuthTag_lt (deriveEncryptionKey a) iv _ hkeyA hiv hct
    simp only [encryptData, aesGcmEncrypt]
    apply decryptData_bad_tag _ _ _ _ hiv htag hct
    intro he
    apply hne
    exact stringToBytes_inj _ _ (gcmAuthTag_key_inj _ _ _ _ he)
  · intro c d h
    unfold deriveEncryptionKey pbkdf2Model
    rw [h]

/-- C5 witness: concrete identities differing in hostname. -/
theorem cross_machine_decrypt_fails_witness :
    joinSystemInfo ⟨"hostA", "user", "linux", "x64"⟩ ≠
      joinSystemInfo ⟨"hostB", "user", "linux", "x64"⟩
    ∧ decryptData (deriveEncryptionKey ⟨"hostB", "user", "linux", "x64"⟩)
        (encryptData (deriveEncryptionKey ⟨"hostA", "user", "linux", "x64"⟩) demoIv "pw") =
        .error decryptFailureMsg :=
  ⟨by decide,
   (cross_machine_decrypt_fails ⟨"hostA", "user", "linux", "x64"⟩
      ⟨"hostB", "user", "linux", "x64"⟩ demoIv "pw" (by decide) (by decide)).1⟩

/-- C5 counterexample: two different identity tuples whose components join
to the same "|"-separated string derive the same key, so a token encrypted
under the first identity decrypts successfully under the second instead of
failing as the claim requires. -/
theorem deriveEncryptionKey_join_collision_counterexample :
    (⟨"x|y", "z", "linux", "x64"⟩ : MachineIdentity) ≠ ⟨"x", "y|z", "linux", "x64"⟩
    ∧ joinSystemInfo ⟨"x|y", "z", "linux", "x64"⟩ = joinSystemInfo ⟨"x", "y|z", "linux", "x64"⟩
    ∧ deriveEncryptionKey ⟨"x|y", "z", "linux", "x64"⟩ =
        deriveEncryptionKey ⟨"x", "y|z", "linux", "x64"⟩
    ∧ decryptData (deriveEncryptionKey ⟨"x", "y|z", "linux", "x64"⟩)
        (encryptData (deriveEncryptionKey ⟨"x|y", "z", "linux", "x64"⟩) demoIv "secret") =
        .ok "secret" := by
  refine ⟨by decide, by decide, by decide, by decide⟩

/-- C10: writing a non-empty plaintext with encryption and reading it back
returns the plaintext, but for the empty plaintext the read returns the
serialized token text itself (which is non-empty), because the
encrypted-shape check treats a token with an empty encrypted field as
unencrypted content. -/
theorem readSecureFile_writeSecureFile_roundtrip (id : MachineIdentity) (iv : List Nat)
    (s : String) (hiv : ∀ b ∈ iv, b < 256) (hivne : iv ≠ []) :
    (s ≠ "" → readSecureFile (deriveEncryptionKey id)
        (writeSecureFile (deriveEncryptionKey id) iv s true) = .ok s)
    ∧ (s = "" → readSecureFile (deriveEncryptionKey id)
          (writeSecureFile (deriveEncryptionKey id) iv s true) =
          .ok (encryptData (deriveEncryptionKey id) iv s)
        ∧ encryptData (deriveEncryptionKey id) iv s ≠ "") := by
  have hkey := deriveEncryptionKey_lt id
  have hct : ∀ b ∈ gcmXorStream (deriveEncryptionKey id) iv 0 (stringToBytes s), b < 256 :=
    gcmXorStream_lt _ iv 0 _ (stringToBytes_lt s)
  have htag := gcmAuthTag_lt (deriveEncryptionKey id) iv _ hkey hiv hct
  constructor
  · intro hs
    have hctne : gcmXorStream (deriveEncryptionKey id) iv 0 (stringToBytes s) ≠ [] := by
      cases hsb : stringToBytes s with
      | nil => exact absurd ((stringToBytes_eq_nil s).mp hsb) hs
      | cons x xs => simp [hsb, gcmXorStream]
    unfold writeSecureFile readSecureFile
    rw [if_pos rfl]
    have henc : isEncrypted (encryptData (deriveEncryptionKey id) iv s) = true := by
      simp only [encryptData, aesGcmEncrypt]
      exact isEncrypted_print _ _ _ hiv htag hct hivne (gcmAuthTag_ne_nil _ _ _) hctne
    rw [if_pos henc]
    exact decryptData_encryptData _ iv s hkey hiv
  · rintro rfl
    have hctnil : gcmXorStream (deriveEncryptionKey id) iv 0 (stringToBytes "") = [] := rfl
    constructor
    · unfold writeSecureFile readSecureFile
      rw [if_pos rfl]
      have henc : isEncrypted (encryptData (deriveEncryptionKey id) iv "") = false := by
        simp only [encryptData, aesGcmEncrypt, hctnil]
        exact isEncrypted_print_empty_ct _ _ hiv (by rw [← hctnil]; exact htag)
      rw [if_neg (by simp [henc])]
    · exact printEncToken_ne_empty _

/-- C10 witness: both conjuncts at a concrete identity and IV, with
plaintexts "data" and "". -/
theorem readSecureFile_writeSecureFile_roundtrip_witness :
    (("data" : String) ≠ "" → readSecureFile (deriveEncryptionKey ⟨"host", "user", "linux", "x64"⟩)
        (writeSecureFile (deriveEncryptionKey ⟨"host", "user", "linux", "x64"⟩) demoIv "data" true) =
        .ok "data")
    ∧ (("" : String) = "" → readSecureFile (deriveEncryptionKey ⟨"host", "user", "linux", "x64"⟩)
          (writeSecureFile (deriveEncryptionKey ⟨"host", "user", "linux", "x64"⟩) demoIv "" true) =
          .ok (encryptData (deriveEncryptionKey ⟨"host", "user", "linux", "x64"⟩) demoIv "")
        ∧ encryptData (deriveEncryptionKey ⟨"host", "user", "linux", "x64"⟩) demoIv "" ≠ "") :=
  ⟨(readSecureFile_writeSecureFile_roundtrip ⟨"host", "user", "linux", "x64"⟩ demoIv "data"
      (by decide) (by decide)).1,
   (readSecureFile_writeSecureFile_roundtrip ⟨"host", "user", "linux", "x64"⟩ demoIv ""
      (by decide) (by decide)).2⟩

/-! ## Claims C2, C6, C7, C8: the cache manager -/
lemma readSecureFile_encryptData (key iv : List Nat) (s : String)
    (hkey : ∀ b ∈ key, b < 256) (hiv : ∀ b ∈ iv, b < 256) (hivne : iv ≠ [])
    (hs : s ≠ "") :
    readSecureFile key (encryptData key iv s) = .ok s := by
  have hct : ∀ b ∈ gcmXorStream key iv 0 (stringToBytes s), b < 256 :=
    gcmXorStream_lt key iv 0 _ (stringToBytes_lt s)
  have htag := gcmAuthTag_lt key iv _ hkey hiv hct
  have hctne : gcmXorStream key iv 0 (stringToBytes s) ≠ [] := by
    cases hsb : stringToBytes s with
    | nil => exact absurd ((stringToBytes_eq_nil s).mp hsb) hs
    | cons x xs => simp [hsb, gcmXorStream]
  unfold readSecureFile
  have henc : isEncrypted (encryptData key iv s) = true := by
    simp only [encryptData, aesGcmEncrypt]
    exact isEncrypted_print _ _ _ hiv htag hct hivne (gcmAuthTag_ne_nil _ _ _) hctne
  rw [if_pos henc]
  exact decryptData_encryptData key iv s hkey hiv

lemma loadCachedData_saved (env : StorageEnv) (w : StorageWorld) (d : CachedData)
    (hkey : ∀ b ∈ env.key, b < 256) (hiv : ∀ b ∈ env.iv, b < 256) (hivne : env.iv ≠ [])
    (hprintne : env.printSnapshot d ≠ "")
    (hrt : env.parseSnapshot (env.printSnapshot d) = some d)
    (hcache : w.cacheContent = some (writeSecureFile env.key env.iv (env.printSnapshot d) true)) :
    loadCachedData env w = (some d, w) := by
  have hw : writeSecureFile env.key env.iv (env.printSnapshot d) true =
      encryptData env.key env.iv (env.printSnapshot d) := rfl
  simp only [loadCachedData, hcache, hw,
    readSecureFile_encryptData env.key env.iv _ hkey hiv hivne hprintne, hrt]

/-- C6: starting with no on-disk cache and a readable, parseable source
file, the first `get(false)` runs the rebuild path and persists the new
snapshot, and a second `get(false)` on the resulting state runs no rebuild
and returns the same snapshot loaded from the cache, leaving the state
unchanged. -/
theorem getCachedData_idempotent_freshness (env : StorageEnv) (w : StorageWorld)
    (src : String) (items : ParsedExport)
    (hconf : w.sourceConfigured = true)
    (hsrc : w.sourceContent = some src)
    (hcache : w.cacheContent = none)
    (hkey : ∀ b ∈ env.key, b < 256)
    (hiv : ∀ b ∈ env.iv, b < 256)
    (hivne : env.iv ≠ [])
    (hparse : env.parseSource src = .ok items)
    (hprintne : env.printSnapshot (mkSnapshot env src items) ≠ "")
    (hrt : env.parseSnapshot (env.printSnapshot (mkSnapshot env src items)) =
      some (mkSnapshot env src items)) :
    getCachedData env w false =
      (.ok (mkSnapshot env src items), saveCachedData env w (mkSnapshot env src items), true)
    ∧ getCachedData env (saveCachedData env w (mkSnapshot env src items)) false =
      (.ok (mkSnapshot env src items), saveCachedData env w (mkSnapshot env src items), false) := by
  constructor
  · simp only [getCachedData, hconf, loadCachedData, hcache, refreshCache, hsrc, hparse]
    simp
  · have hload : loadCachedData env (saveCachedData env w (mkSnapshot env src items)) =
        (some (mkSnapshot env src items), saveCachedData env w (mkSnapshot env src items)) :=
      loadCachedData_saved env _ _ hkey hiv hivne hprintne hrt rfl
    simp only [getCachedData, hload]
    simp [saveCachedData, hconf, hsrc, mkSnapshot]

/-- C7: when parsing the source file fails, `refreshCache` propagates the
error and leaves the world, in particular the cache file content, exactly
unchanged, and `get(false)` reaching the rebuild propagates the same error
with the world unchanged. -/
theorem rebuild_failure_preserves_cache (env : StorageEnv) (w : StorageWorld)
    (src e : String)
    (hconf : w.sourceConfigured = true)
    (hsrc : w.sourceContent = some src)
    (hparse : env.parseSource src = .error e) :
    refreshCache env w = (.error e, w)
    ∧ (w.cacheContent = none → getCachedData env w false = (.error e, w, true)) := by
  have hrefresh : refreshCache env w = (.error e, w) := by
    simp [refreshCache, hconf, hsrc, hparse]
  refine ⟨hrefresh, fun hcache => ?_⟩
  simp only [getCachedData, loadCachedData, hcache, hrefresh]
  simp [hconf]

/-- C8: when a cache file exists but reading it fails (decryption or
snapshot-parse failure), `get(false)` does not surface the failure: the
unreadable cache file is removed and a full rebuild from the source file
runs, persisting a fresh snapshot. -/
theorem corrupt_cache_recovered_by_rebuild (env : StorageEnv) (w : StorageWorld)
    (c src : String) (items : ParsedExport)
    (hconf : w.sourceConfigured = true)
    (hcache : w.cacheContent = some c)
    (hbad : cacheUnreadable env c = true)
    (hsrc : w.sourceContent = some src)
    (hparse : env.parseSource src = .ok items) :
    getCachedData env w false =
      (.ok (mkSnapshot env src items), saveCachedData env w (mkSnapshot env src items), true) := by
  have hload : loadCachedData env w = (none, { w with cacheContent := none }) := by
    unfold cacheUnreadable at hbad
    simp only [loadCachedData, hcache]
    cases hr : readSecureFile env.key c with
    | error a => rfl
    | ok p =>
      rw [hr] at hbad
      simp only [Option.isNone_iff_eq_none] at hbad
      simp [hbad]
  simp only [getCachedData, hload]
  simp [refreshCache, saveCachedData, hconf, hsrc, hparse]

/-- C2 (amended): mutations of the source file that change the 32-bit
rolling hash change the fingerprint string, and a `get(false)` call whose
cached snapshot carries the old fingerprint runs the rebuild path; contents
with equal rolling hash (see the counterexample) are not distinguished. -/
theorem hash_mismatch_forces_rebuild (env : StorageEnv) (w : StorageWorld)
    (snap : CachedData) (c1 c2 : String)
    (hconf : w.sourceConfigured = true)
    (hsrc : w.sourceContent = some c2)
    (hcache : w.cacheContent =
      some (writeSecureFile env.key env.iv (env.printSnapshot snap) true))
    (hkey : ∀ b ∈ env.key, b < 256)
    (hiv : ∀ b ∈ env.iv, b < 256)
    (hivne : env.iv ≠ [])
    (hprintne : env.printSnapshot snap ≠ "")
    (hrt : env.parseSnapshot (env.printSnapshot snap) = some snap)
    (hfp : snap.exportFileHash = calculateFileHash c1)
    (hdiff : jsStringHash c1 ≠ jsStringHash c2) :
    calculateFileHash c1 ≠ calculateFileHash c2
    ∧ (getCachedData env w false).2.2 = true := by
  have hne := calculateFileHash_ne_of_hash_ne c1 c2 hdiff
  refine ⟨hne, ?_⟩
  have hload : loadCachedData env w = (some snap, w) :=
    loadCachedData_saved env w snap hkey hiv hivne hprintne hrt hcache
  simp only [getCachedData, hload, hconf, hsrc]
  have hbne : (snap.exportFileHash != calculateFileHash c2) = true := by
    rw [hfp]
    simpa using hne
  simp only [hbne]
  cases refreshCache env w with
  | mk r w2 => simp
/-- C6 witness: a concrete environment and empty-cache world. -/
theorem getCachedData_idempotent_freshness_witness :
    getCachedData demoEnv ⟨true, some "csv", none⟩ false =
      (.ok (mkSnapshot demoEnv "csv" demoParsed),
        saveCachedData demoEnv ⟨true, some "csv", none⟩ (mkSnapshot demoEnv "csv" demoParsed),
        true)
    ∧ getCachedData demoEnv
        (saveCachedData demoEnv ⟨true, some "csv", none⟩ (mkSnapshot demoEnv "csv" demoParsed))
        false =
      (.ok (mkSnapshot demoEnv "csv" demoParsed),
        saveCachedData demoEnv ⟨true, some "csv", none⟩ (mkSnapshot demoEnv "csv" demoParsed),
        false) :=
  getCachedData_idempotent_freshness demoEnv ⟨true, some "csv", none⟩ "csv" demoParsed
    rfl rfl rfl (by decide) (by decide) (by decide) (by decide) (by decide) (by decide)

/-- C7 witness: a concrete source content the demo parser rejects. -/
theorem rebuild_failure_preserves_cache_witness :
    refreshCache demoEnv ⟨true, some "bad", none⟩ =
      (.error demoParseErrorMsg, ⟨true, some "bad", none⟩)
    ∧ getCachedData demoEnv ⟨true, some "bad", none⟩ false =
      (.error demoParseErrorMsg, ⟨true, some "bad", none⟩, true) :=
  have h := rebuild_failure_preserves_cache demoEnv ⟨true, some "bad", none⟩ "bad"
    demoParseErrorMsg rfl rfl (by decide)
  ⟨h.1, h.2 rfl⟩

/-- C8 witness: a concrete world whose cache file content is unreadable. -/
theorem corrupt_cache_recovered_by_rebuild_witness :
    cacheUnreadable demoEnv "garbage" = true
    ∧ getCachedData demoEnv ⟨true, some "csv", some "garbage"⟩ false =
      (.ok (mkSnapshot demoEnv "csv" demoParsed),
        saveCachedData demoEnv ⟨true, some "csv", some "garbage"⟩
          (mkSnapshot demoEnv "csv" demoParsed),
        true) :=
  ⟨by decide,
   corrupt_cache_recovered_by_rebuild demoEnv ⟨true, some "csv", some "garbage"⟩
     "garbage" "csv" demoParsed rfl rfl (by decide) rfl (by decide)⟩

/-- C2 witness: contents "Aa" and "Ab" whose rolling hashes differ. -/
theorem hash_mismatch_forces_rebuild_witness :
    calculateFileHash "Aa" ≠ calculateFileHash "Ab"
    ∧ (getCachedData staleEnv
        ⟨true, some "Ab", some (writeSecureFile demoKey demoIv "SNAP" true)⟩ false).2.2 =
      true :=
  hash_mismatch_forces_rebuild staleEnv
    ⟨true, some "Ab", some (writeSecureFile demoKey demoIv "SNAP" true)⟩ staleSnap "Aa" "Ab"
    rfl rfl rfl (by decide) (by decide) (by decide) (by decide) (by decide) (by decide)
    (by decide)

/-- C2 counterexample: the contents "Aa" and "BB" differ but share the
rolling-hash fingerprint, and a `get(false)` call whose cached snapshot was
built from "Aa" serves that snapshot without any rebuild although the source
file now holds "BB". -/
theorem calculateFileHash_collision_counterexample :
    ("Aa" : String) ≠ "BB"
    ∧ calculateFileHash "Aa" = calculateFileHash "BB"
    ∧ staleSnap.exportFileHash = calculateFileHash "Aa"
    ∧ getCachedData staleEnv
        ⟨true, some "BB", some (writeSecureFile demoKey demoIv "SNAP" true)⟩ false =
      (.ok staleSnap,
        ⟨true, some "BB", some (writeSecureFile demoKey demoIv "SNAP" true)⟩, false) := by
  refine ⟨by decide, by decide, by decide, by decide⟩
